import Mathlib

/-!
Verification of the Timer Engine of the community-server assistant bot in
`src/main.py`: the duration parser, the timer registry, the timer view's
Pause/Resume and End controls, the per-timer expiry watcher, and the rendered
progress bar.

Modelling conventions: Python floats are modelled as exact rationals, instants
as rational (for the views) or integer (for the watcher's 1-second polling
loop) seconds, the watcher loop as a discrete transition system with one step
per tick, and the `\d`/`\s` character classes over ASCII.  Fallible Python
code (dictionary access that can raise `KeyError`, subtraction involving
`None`) is modelled with `Except`.
-/

namespace BdsBot

/-- Python `int(x)` applied to a rational: truncation toward zero. -/
def pyTrunc (q : ℚ) : ℤ := if 0 ≤ q then ⌊q⌋ else -⌊-q⌋

/-! ## Duration parser (`parse_duration`, src/main.py:546-558)

The pattern is `(\d*\.?\d+)\s*(h|m|s)` with `re.IGNORECASE`, applied with
`re.findall`. -/

/-- The `\d` character class of the pattern (ASCII decimal digit). -/
def isDigitC (c : Char) : Bool := c.isDigit

/-- The `\s` character class of the pattern (ASCII whitespace). -/
def isSpaceC (c : Char) : Bool :=
  c == ' ' || c == '\t' || c == '\n' || c == '\r' || c == '\x0b' || c == '\x0c'

/-- The `(h|m|s)` alternatives under `re.IGNORECASE`. -/
def isUnitC (c : Char) : Bool :=
  c == 'h' || c == 'm' || c == 's' || c == 'H' || c == 'M' || c == 'S'

/-- The longest prefix of `cs` matching the number group `\d*\.?\d+`,
returned together with the rest of the input.  Python's backtracking engine
tries this longest candidate first; every shorter candidate it would try on
failure ends directly before a digit or a dot, where the subsequent
`\s*(h|m|s)` necessarily fails as well, so the longest candidate is the only
one that can complete a match at a given position. -/
def numeralAt (cs : List Char) : Option (List Char × List Char) :=
  let d1 := cs.takeWhile isDigitC
  let r1 := cs.dropWhile isDigitC
  match r1 with
  | '.' :: r2 =>
      let d2 := r2.takeWhile isDigitC
      if d2 = [] then
        if d1 = [] then none else some (d1, r1)
      else
        some (d1 ++ '.' :: d2, r2.dropWhile isDigitC)
  | _ => if d1 = [] then none else some (d1, r1)

/-- One attempt of the full pattern `(\d*\.?\d+)\s*(h|m|s)` at the head of
`cs`: the number group, then optional whitespace, then a unit letter.
Returns (number chars, unit char, rest after the unit). -/
def matchAt (cs : List Char) : Option (List Char × Char × List Char) :=
  match numeralAt cs with
  | none => none
  | some (num, r) =>
      match r.dropWhile isSpaceC with
      | c :: t => if isUnitC c then some (num, c, t) else none
      | [] => none

/-- The occurrence shape exactly as the specification words it: a decimal
number *immediately* followed by a unit letter, with no intervening
characters (the `\s*` of the implemented pattern is absent here). -/
def matchAtImmediate (cs : List Char) : Option (List Char × Char × List Char) :=
  match numeralAt cs with
  | none => none
  | some (num, r) =>
      match r with
      | c :: t => if isUnitC c then some (num, c, t) else none
      | [] => none

/-- Left-to-right non-overlapping scan collecting all matches, as
`re.findall` does: on a match, resume after it; otherwise advance one
character.  `fuel` bounds the recursion; `scanWith` supplies the input
length, which suffices because every match consumes at least one
character. -/
def scanAux (m : List Char → Option (List Char × Char × List Char)) :
    Nat → List Char → List (List Char × Char)
  | 0, _ => []
  | _ + 1, [] => []
  | fuel + 1, c :: cs =>
      match m (c :: cs) with
      | some (num, u, rest) => (num, u) :: scanAux m fuel rest
      | none => scanAux m fuel cs

/-- All matches of the matcher `m` in `cs`, in order. -/
def scanWith (m : List Char → Option (List Char × Char × List Char))
    (cs : List Char) : List (List Char × Char) :=
  scanAux m cs.length cs

/-- Numeric value of one ASCII digit. -/
def digitVal (c : Char) : ℕ := c.toNat - 48

/-- Value of a run of ASCII digits read in base 10. -/
def digitsToNat (ds : List Char) : ℕ :=
  ds.foldl (fun a c => 10 * a + digitVal c) 0

/-- An exact fraction kept as an explicit numerator/denominator pair.  The
parser's Python float arithmetic is modelled exactly; computing with raw
pairs (denominators are powers of ten, never reduced) keeps every operation
kernel-computable.  `Frac.val` reads the pair back as a rational. -/
structure Frac where
  num : ℤ
  den : ℕ
deriving DecidableEq

/-- The rational value a fraction pair denotes. -/
def Frac.val (f : Frac) : ℚ := (f.num : ℚ) / (f.den : ℚ)

/-- Exact addition on fraction pairs. -/
def Frac.add (f g : Frac) : Frac :=
  ⟨f.num * g.den + g.num * f.den, f.den * g.den⟩

/-- Exact multiplication of a fraction pair by a natural number. -/
def Frac.mulNat (f : Frac) (n : ℕ) : Frac := ⟨f.num * n, f.den⟩

/-- Python `int(x)` on a fraction pair: truncation toward zero. -/
def Frac.trunc (f : Frac) : ℤ :=
  if 0 ≤ f.num then ((f.num.toNat / f.den : ℕ) : ℤ)
  else -((f.num.natAbs / f.den : ℕ) : ℤ)

/-- Python `float` applied to a matched number group (digits optionally
containing one dot), as an exact fraction pair over `10 ^ |fractional|`. -/
def numeralValF (ds : List Char) : Frac :=
  let ip := ds.takeWhile isDigitC
  let fp := match ds.dropWhile isDigitC with
    | '.' :: t => t
    | _ => []
  ⟨((digitsToNat ip * 10 ^ fp.length + digitsToNat fp : ℕ) : ℤ), 10 ^ fp.length⟩

/-- Seconds per unit letter: `h` × 3600, `m` × 60, `s` × 1, matched
case-insensitively via `unit.lower()`; any other character contributes
nothing (unreachable for scanner output). -/
def unitFactor (c : Char) : ℕ :=
  if c == 'h' || c == 'H' then 3600
  else if c == 'm' || c == 'M' then 60
  else if c == 's' || c == 'S' then 1
  else 0

/-- The accumulation loop of `parse_duration`:
`total_seconds += value * factor` over the list of matches. -/
def sumMatchesF (ms : List (List Char × Char)) : Frac :=
  ms.foldl (fun acc p => acc.add ((numeralValF p.1).mulNat (unitFactor p.2))) ⟨0, 1⟩

/-- `parse_duration` (src/main.py:546): find all matches of
`(\d*\.?\d+)\s*(h|m|s)` case-insensitively, sum their values converted to
seconds, and truncate the total to an integer. -/
def parse_duration (s : String) : ℤ :=
  (sumMatchesF (scanWith matchAt s.data)).trunc

/-- Rational value of one matched number group, as the specification words
it: the decimal number's value. -/
def numeralValQ (ds : List Char) : ℚ :=
  let ip := ds.takeWhile isDigitC
  let fp := match ds.dropWhile isDigitC with
    | '.' :: t => t
    | _ => []
  (digitsToNat ip : ℚ) + (digitsToNat fp : ℚ) / (10 : ℚ) ^ fp.length

/-- The total as the specification words it: the sum over the extracted
occurrences of the number's value converted to seconds. -/
def specSum (ms : List (List Char × Char)) : ℚ :=
  (ms.map (fun p => numeralValQ p.1 * (unitFactor p.2 : ℚ))).sum

/-! ## Timer state (`TimerView`, src/main.py:131-236)

Instants are rational seconds since an arbitrary epoch (`datetime.now()`
values).  Only state-relevant fields are modelled; the Discord
message/interaction handles are external. -/

/-- The mutable state of `TimerView.__init__` (src/main.py:135): the
registry key, the immutable initial duration, the `duration_seconds` field
(set to the initial duration at creation), the completion instant
`end_time = now + duration`, the paused flag, the pause start instant, the
Pause/Resume button's current label, and whether the controls have been
disabled. -/
structure TimerView where
  timer_id : String
  initial_duration : ℚ
  duration_seconds : ℚ
  end_time : ℚ
  paused : Bool
  pause_start_time : Option ℚ
  button_label : String
  buttons_disabled : Bool
deriving DecidableEq

/-- `TimerView.__init__` at instant `now` with duration `d` seconds. -/
def mkTimerView (id : String) (d : ℚ) (now : ℚ) : TimerView :=
  ⟨id, d, d, now + d, false, none, "Pause", false⟩

/-- A value of the `active_timers` registry: the view and the `'paused'`
flag (the `'task'` handle is modelled implicitly: cancelling the watcher
coincides with removing the entry). -/
structure RegEntry where
  view : TimerView
  paused : Bool
deriving DecidableEq

/-- The process-wide `active_timers` dictionary, keyed by timer id. -/
abbrev Registry : Type := List (String × RegEntry)

/-- Dictionary lookup, `active_timers.get(id)`. -/
def rlookup : Registry → String → Option RegEntry
  | [], _ => none
  | (k, e) :: r, id => if k = id then some e else rlookup r id

/-- Dictionary assignment to an existing key,
`active_timers[id] = entry` with `id` present. -/
def rset : Registry → String → RegEntry → Registry
  | [], _, _ => []
  | (k, e) :: r, id, e' => if k = id then (k, e') :: r else (k, e) :: rset r id e'

/-- `TimerView.stop_timer` (src/main.py:232): if the id is registered,
cancel its watcher task and delete the entry; otherwise do nothing. -/
def stop_timer (reg : Registry) (id : String) : Registry :=
  if (rlookup reg id).isSome then List.filter (fun p => p.1 != id) reg else reg

/-- The registry key `f"{guild_id}-{channel_id}-{user_id}"`
(src/main.py:575). -/
def timerId (guildId channelId userId : ℕ) : String :=
  toString guildId ++ "-" ++ toString channelId ++ "-" ++ toString userId

/-- Outcome of the `/time` command visible to the requester. -/
inductive StartResult where
  | invalidDuration
  | identityCollision
  | started
deriving DecidableEq

/-- The `/time` command (src/main.py:565-588): parse the duration, reject a
non-positive total ("Please provide a valid duration."), reject an identity
collision ("A timer is already active..."), otherwise create the view,
register it with `'paused': False`, and start the watcher task. -/
def startTimer (reg : Registry) (durationStr : String)
    (guildId channelId userId : ℕ) (now : ℚ) : Registry × StartResult :=
  let d := parse_duration durationStr
  if d ≤ 0 then (reg, .invalidDuration)
  else
    let id := timerId guildId channelId userId
    if (rlookup reg id).isSome then (reg, .identityCollision)
    else (reg ++ [(id, ⟨mkTimerView id (d : ℚ) now, false⟩)], .started)

/-- Exceptions the Pause/Resume handler can raise. -/
inductive PyErr where
  | keyError
  | typeError
deriving DecidableEq

/-- The registry write shared by both branches of the Pause/Resume handler:
`active_timers[self.timer_id]['paused'] = b`, raising `KeyError` when the
id is absent, then the ephemeral acknowledgment.  The dictionary write
touches only the `'paused'` flag; the entry's stored view is left exactly
as it was.  (When the pressed view is the very object registered under the
id — the normal path — its in-place mutation is additionally visible
through the entry in Python; that aliased path is modelled by
`pause_button_registered`.  When the pressed view is stale, because its
identity was deregistered and then re-registered by a fresh `/time`, only
the flag of the new entry changes, which is what this function
captures.) -/
def pbWrite (reg : Registry) (v' : TimerView) (b : Bool) (ack : String) :
    TimerView × Registry × Except PyErr String :=
  match rlookup reg v'.timer_id with
  | none => (v', reg, .error .keyError)
  | some e => (v', rset reg v'.timer_id ⟨e.view, b⟩, .ok ack)

/-- The Pause/Resume toggle (`TimerView.pause_button`, src/main.py:195-216).
The handler first mutates the view in place — on resume it computes
`pause_duration = now - pause_start_time` (a `TypeError` if that field is
still `None`) and shifts `end_time` forward by it; on pause it records the
pause start instant — flips the button label, then writes the new flag into
the registry entry and acknowledges.  There is no staleness guard: nothing
checks whether the timer still exists before the registry write. -/
def pause_button (reg : Registry) (v : TimerView) (now : ℚ) :
    TimerView × Registry × Except PyErr String :=
  if v.paused then
    match v.pause_start_time with
    | none => ({ v with paused := false }, reg, .error .typeError)
    | some t0 =>
        pbWrite reg
          { v with paused := false, end_time := v.end_time + (now - t0),
                   button_label := "Pause" }
          false "Timer resumed!"
  else
    pbWrite reg
      { v with paused := true, pause_start_time := some now,
               button_label := "Resume" }
      true "Timer paused!"

/-- The Pause/Resume handler running on the *currently registered* control
for `id` — the normal path.  `/time` (src/main.py:580-588) registers the
very `TimerView` object whose button callbacks run, so there `self` is
`active_timers[id]['view']` and `self.timer_id = id`: the handler's
in-place mutation of `self` (src/main.py:199-203 and 208-211) is visible
through the entry, and the subsequent write
`active_timers[id]['paused'] = b` (src/main.py:204/212) puts the matching
flag beside it in the same handler step.  On resume with
`pause_start_time` still `None` the `TypeError` fires before the registry
write, leaving the registry untouched.  A press on a view that is *not*
the registered one is `pause_button`, where only the flag is written. -/
def pause_button_registered (reg : Registry) (id : String) (now : ℚ) :
    Registry :=
  match rlookup reg id with
  | none => reg
  | some e =>
      if e.view.paused then
        match e.view.pause_start_time with
        | none => reg
        | some t0 =>
            rset reg id
              ⟨{ e.view with
                  paused := false,
                  end_time := e.view.end_time + (now - t0),
                  button_label := "Pause" },
                false⟩
      else
        rset reg id
          ⟨{ e.view with
              paused := true,
              pause_start_time := some now,
              button_label := "Resume" },
            true⟩

/-- The End button (`TimerView.end_button`, src/main.py:219-229):
`stop_timer` (cancel the watcher and delete the registry entry if present),
acknowledge ephemerally, disable both buttons, re-render the embed with
status Ended.  The returned list holds the channel notifications emitted by
the handler — always none; only the watcher sends channel notifications. -/
def end_button (reg : Registry) (v : TimerView) :
    Registry × TimerView × List String :=
  (stop_timer reg v.timer_id, { v with buttons_disabled := true }, [])

/-- The remaining-seconds computation of `TimerView.update_embed`
(src/main.py:147-164): while paused it renders `self.duration_seconds` — a
field initialized to the full initial duration and never assigned again
anywhere — otherwise `end_time - now`; negative values are clamped to
zero. -/
def update_embed_remaining (v : TimerView) (now : ℚ) : ℚ :=
  let r := if v.paused then v.duration_seconds else v.end_time - now
  if r ≤ 0 then 0 else r

/-! ## Display renderer (`TimerView.create_timer_embed`, src/main.py:173-193) -/

/-- The filled-cell count of the progress bar:
`int(bar_length * progress_percentage)` where `bar_length = 25` and
`progress_percentage = max(0, remaining) / initial` when `initial > 0`,
else `0`. -/
def filled_length (remaining initial : ℚ) : ℕ :=
  (pyTrunc (25 * (if 0 < initial then max 0 remaining / initial else 0))).toNat

/-- The rendered bar `'█' * filled + '░' * (25 - filled)`; a negative
Python repetition count yields the empty string, exactly as truncated `ℕ`
subtraction does. -/
def progress_bar (remaining initial : ℚ) : List Char :=
  List.replicate (filled_length remaining initial) '█' ++
    List.replicate (25 - filled_length remaining initial) '░'

/-! ## Expiry watcher (`timer_task`, src/main.py:590-616)

The watcher polls once per second; it is modelled as a discrete transition
system with one step per tick, over integer instants (one unit per
1-second tick).  The registry's `'paused'` flag as read at each tick is the
step's input. -/

/-- One watcher's state: the current instant, the task-local completion
instant `end_time`, the latched `one_minute_warning_sent` flag, whether the
expiry transition has run (the loop broke), the number of one-minute
notifications sent so far, and the wall-clock seconds slept while not
paused (`runTime`, instrumentation for the time-accounting claim). -/
structure WState where
  now : ℤ
  endT : ℤ
  warned : Bool
  finished : Bool
  notes : ℕ
  runTime : ℕ
deriving DecidableEq

/-- Watcher state at task start for a duration of `d` seconds:
`end_time = now + duration`. -/
def winit (d : ℕ) : WState := ⟨0, (d : ℤ), false, false, 0, 0⟩

/-- One iteration of the watcher loop, with `paused` the registry flag read
this tick.  If not paused: `remaining = end_time - now`; when
`remaining ≤ 60` and the warning has not been sent, send it and latch the
flag; when `remaining ≤ 0`, notify, stop the timer and break out (no
sleep).  Then, if paused, shift `end_time` forward by one tick interval;
finally sleep one second.  A finished watcher's task has ended and never
steps again. -/
def wstep (paused : Bool) (s : WState) : WState :=
  if s.finished then s
  else if paused then
    { s with endT := s.endT + 1, now := s.now + 1 }
  else
    if s.endT - s.now ≤ 60 ∧ s.warned = false then
      if s.endT - s.now ≤ 0 then
        { s with warned := true, notes := s.notes + 1, finished := true }
      else
        { s with warned := true, notes := s.notes + 1,
                 now := s.now + 1, runTime := s.runTime + 1 }
    else
      if s.endT - s.now ≤ 0 then { s with finished := true }
      else { s with now := s.now + 1, runTime := s.runTime + 1 }

/-- The watcher run over a finite schedule of per-tick paused flags. -/
def wrun (sched : List Bool) (s : WState) : WState :=
  sched.foldl (fun st p => wstep p st) s

/-! ## Invariants and claim statements -/

/-- Loop invariant of the watcher: while the loop is live, the remaining
time equals the initial duration minus the seconds spent running, and the
latter never exceeds the duration; once finished, the seconds spent running
equal the initial duration exactly. -/
def WInv (d : ℕ) (s : WState) : Prop :=
  (s.finished = false → s.endT - s.now = (d : ℤ) - (s.runTime : ℤ) ∧ s.runTime ≤ d) ∧
  (s.finished = true → s.runTime = d)

/-- Notification-count invariant: the number of one-minute notifications
sent equals 1 if the latch is set and 0 otherwise. -/
def NInv (s : WState) : Prop := s.notes = if s.warned = true then 1 else 0

/-- The registry/view agreement invariant: every registered entry's
`'paused'` flag equals the `paused` field of the view it holds. -/
def RegInv (reg : Registry) : Prop := ∀ p ∈ reg, p.2.paused = p.2.view.paused

/-- Whether an `Except` result is a success. -/
def exceptOk {ε α : Type} : Except ε α → Bool
  | .ok _ => true
  | .error _ => false

/-- Claim C3 as stated: the parser's total equals the truncated sum over
the occurrences in which the unit letter immediately follows the number,
with no intervening characters. -/
def claimC3Statement (s : String) : Prop :=
  parse_duration s = pyTrunc (specSum (scanWith matchAtImmediate s.data))

/-- Claim C6 as stated: the rendered bar always has exactly 25 cells, the
filled-cell count is `round(25 * clamp(remaining, 0, initial) / initial)`
for positive `initial`, and 0 for `initial = 0`. -/
def claimC6Statement (remaining initial : ℚ) : Prop :=
  (progress_bar remaining initial).length = 25 ∧
  (0 < initial →
    (filled_length remaining initial : ℤ) =
      round (25 * max 0 (min remaining initial) / initial)) ∧
  (initial = 0 → filled_length remaining initial = 0)

/-- Claim C8 as stated: toggling Pause/Resume on a timer absent from the
registry raises no error, changes no timer state, and leaves the registry
unchanged. -/
def claimC8Statement (reg : Registry) (v : TimerView) (now : ℚ) : Prop :=
  exceptOk (pause_button reg v now).2.2 = true ∧
  (pause_button reg v now).1 = v ∧
  (pause_button reg v now).2.1 = reg

/-- Claim C10 as stated: every Pause/Resume toggle keeps the registry
entry's `'paused'` flag equal to the paused field of that entry's view,
for any press that reaches the handler. -/
def claimC10Statement : Prop :=
  ∀ (reg : Registry) (v : TimerView) (now : ℚ),
    RegInv reg → RegInv (pause_button reg v now).2.1

/-- A 5-second timer view created at instant 0 for key `"1-2-3"`. -/
def sampleView : TimerView := mkTimerView "1-2-3" 5 0

/-- A registry holding only `sampleView`, as registered by `/time`. -/
def sampleReg : Registry := [("1-2-3", ⟨sampleView, false⟩)]

/-- A 7-second timer view created at instant 100 for the same identity
`"1-2-3"`: the *re-registered* timer of the stale-press scenario. -/
def freshView : TimerView := mkTimerView "1-2-3" 7 100

/-- The registry after the first `"1-2-3"` timer was deregistered and the
identity re-registered by a fresh `/time` with `freshView`. -/
def freshReg : Registry := [("1-2-3", ⟨freshView, false⟩)]

/-- A 90-second timer view created at instant 0, the failing input of
claim C1. -/
def view90 : TimerView := mkTimerView "1-2-3" 90 0

/-- The registry as it stands right after `view90` was registered. -/
def reg90 : Registry := [("1-2-3", ⟨view90, false⟩)]

/-! ## Bridge lemmas: fraction pairs versus rationals -/

theorem Frac.val_add (f g : Frac) (hf : f.den ≠ 0) (hg : g.den ≠ 0) :
    (f.add g).val = f.val + g.val := by
  have hf' : (f.den : ℚ) ≠ 0 := Nat.cast_ne_zero.mpr hf
  have hg' : (g.den : ℚ) ≠ 0 := Nat.cast_ne_zero.mpr hg
  unfold Frac.val Frac.add
  push_cast
  field_simp
  try ring

theorem Frac.val_mulNat (f : Frac) (n : ℕ) : (f.mulNat n).val = f.val * n := by
  unfold Frac.val Frac.mulNat
  push_cast
  ring

theorem Frac.trunc_eq_pyTrunc (f : Frac) (hd : f.den ≠ 0) (hn : 0 ≤ f.num) :
    f.trunc = pyTrunc f.val := by
  have hq : (0 : ℚ) ≤ f.val :=
    div_nonneg (by exact_mod_cast hn) (by positivity)
  unfold Frac.trunc pyTrunc
  rw [if_pos hn, if_pos hq]
  have hnum : ((f.num.toNat : ℕ) : ℚ) = (f.num : ℚ) := by
    exact_mod_cast Int.toNat_of_nonneg hn
  calc ((f.num.toNat / f.den : ℕ) : ℤ)
      = (f.num.toNat : ℤ) / (f.den : ℤ) := Int.ofNat_ediv _ _
    _ = ⌊((f.num.toNat : ℕ) : ℚ) / ((f.den : ℕ) : ℚ)⌋ :=
        (Rat.floor_natCast_div_natCast _ _).symm
    _ = ⌊f.val⌋ := by unfold Frac.val; rw [show ((f.num.toNat : ℕ) : ℚ) = (f.num : ℚ) from hnum]

theorem numeralValF_val (ds : List Char) :
    (numeralValF ds).val = numeralValQ ds := by
  unfold numeralValF numeralValQ Frac.val
  have h10 : ((10 : ℚ) ^ (match ds.dropWhile isDigitC with
      | '.' :: t => t
      | _ => []).length) ≠ 0 := by positivity
  push_cast
  field_simp

theorem numeralValF_den (ds : List Char) : (numeralValF ds).den ≠ 0 := by
  unfold numeralValF
  positivity

theorem numeralValF_nonneg (ds : List Char) : 0 ≤ (numeralValF ds).num := by
  unfold numeralValF
  positivity

theorem numeralValQ_nonneg (ds : List Char) : 0 ≤ numeralValQ ds := by
  unfold numeralValQ
  positivity

theorem specSum_nonneg (ms : List (List Char × Char)) : 0 ≤ specSum ms := by
  unfold specSum
  refine List.sum_nonneg ?_
  intro x hx
  obtain ⟨p, _, rfl⟩ := List.mem_map.mp hx
  have := numeralValQ_nonneg p.1
  positivity

/-- The accumulator invariant of the `parse_duration` loop: a positive
power-of-ten denominator, a non-negative numerator, and a value tracking
the rational sum of the matches. -/
theorem sumMatchesF_fold (ms : List (List Char × Char)) :
    ∀ acc : Frac, acc.den ≠ 0 → 0 ≤ acc.num →
      (ms.foldl (fun acc p => acc.add ((numeralValF p.1).mulNat (unitFactor p.2))) acc).den ≠ 0 ∧
      0 ≤ (ms.foldl (fun acc p => acc.add ((numeralValF p.1).mulNat (unitFactor p.2))) acc).num ∧
      (ms.foldl (fun acc p => acc.add ((numeralValF p.1).mulNat (unitFactor p.2))) acc).val =
        acc.val + specSum ms := by
  induction ms with
  | nil =>
      intro acc hd hn
      refine ⟨hd, hn, ?_⟩
      simp [specSum]
  | cons p ms ih =>
      intro acc hd hn
      have hterm_den : ((numeralValF p.1).mulNat (unitFactor p.2)).den ≠ 0 := by
        unfold Frac.mulNat
        exact numeralValF_den p.1
      have hterm_num : 0 ≤ ((numeralValF p.1).mulNat (unitFactor p.2)).num := by
        unfold Frac.mulNat
        have := numeralValF_nonneg p.1
        positivity
      have hd' : (acc.add ((numeralValF p.1).mulNat (unitFactor p.2))).den ≠ 0 := by
        unfold Frac.add
        simp [Nat.mul_ne_zero hd hterm_den]
      have hn' : 0 ≤ (acc.add ((numeralValF p.1).mulNat (unitFactor p.2))).num := by
        unfold Frac.add
        have h1 : (0 : ℤ) ≤ acc.num * ((numeralValF p.1).mulNat (unitFactor p.2)).den := by
          positivity
        have h2 : (0 : ℤ) ≤ ((numeralValF p.1).mulNat (unitFactor p.2)).num * acc.den := by
          positivity
        simpa using add_nonneg h1 h2
      obtain ⟨rd, rn, rv⟩ := ih (acc.add ((numeralValF p.1).mulNat (unitFactor p.2))) hd' hn'
      refine ⟨rd, rn, ?_⟩
      rw [List.foldl_cons, rv, Frac.val_add _ _ hd hterm_den, Frac.val_mulNat,
        numeralValF_val]
      have : specSum (p :: ms) = numeralValQ p.1 * (unitFactor p.2 : ℚ) + specSum ms := by
        unfold specSum
        simp
      rw [this]
      ring

theorem parse_duration_eq_specSum (s : String) :
    parse_duration s = pyTrunc (specSum (scanWith matchAt s.data)) := by
  obtain ⟨hd, hn, hv⟩ := sumMatchesF_fold (scanWith matchAt s.data) ⟨0, 1⟩
    (by simp) (by simp)
  unfold parse_duration sumMatchesF
  rw [Frac.trunc_eq_pyTrunc _ hd hn, hv]
  have : Frac.val ⟨0, 1⟩ = 0 := by simp [Frac.val]
  rw [this, zero_add]

theorem parse_duration_nonneg (s : String) : 0 ≤ parse_duration s := by
  rw [parse_duration_eq_specSum]
  unfold pyTrunc
  rw [if_pos (specSum_nonneg _)]
  exact Int.floor_nonneg.mpr (specSum_nonneg _)

/-! ## Registry lemmas -/

theorem rlookup_filter_self (reg : Registry) (id : String) :
    rlookup (List.filter (fun p => p.1 != id) reg) id = none := by
  induction reg with
  | nil => rfl
  | cons p r ih =>
      by_cases h : p.1 = id
      · simpa [List.filter, h] using ih
      · have hb : (p.1 != id) = true := by simpa using h
        simpa [List.filter, hb, rlookup, h] using ih

theorem rlookup_stop_timer (reg : Registry) (id : String) :
    rlookup (stop_timer reg id) id = none := by
  unfold stop_timer
  by_cases h : (rlookup reg id).isSome
  · rw [if_pos h]
    exact rlookup_filter_self reg id
  · rw [if_neg h]
    exact Option.not_isSome_iff_eq_none.mp h

theorem stop_timer_absent (reg : Registry) (id : String)
    (h : rlookup reg id = none) : stop_timer reg id = reg := by
  unfold stop_timer
  rw [h]
  rfl

theorem stop_timer_idem (reg : Registry) (id : String) :
    stop_timer (stop_timer reg id) id = stop_timer reg id :=
  stop_timer_absent _ _ (rlookup_stop_timer reg id)

theorem rlookup_append_singleton (reg : Registry) (id : String) (e : RegEntry)
    (h : rlookup reg id = none) : rlookup (reg ++ [(id, e)]) id = some e := by
  induction reg with
  | nil => simp [rlookup]
  | cons p r ih =>
      by_cases hp : p.1 = id
      · simp [rlookup, hp] at h
      · obtain ⟨k, e'⟩ := p
        simp only [rlookup, List.cons_append] at h ⊢
        rw [if_neg (by simpa using hp)] at h ⊢
        exact ih h

theorem pbWrite_fst (reg : Registry) (v' : TimerView) (b : Bool) (ack : String) :
    (pbWrite reg v' b ack).1 = v' := by
  unfold pbWrite
  cases rlookup reg v'.timer_id <;> rfl

theorem pause_button_fst_of_running (reg : Registry) (v : TimerView) (now : ℚ)
    (h : v.paused = false) :
    (pause_button reg v now).1 =
      { v with paused := true, pause_start_time := some now,
               button_label := "Resume" } := by
  unfold pause_button
  rw [h]
  simp only [Bool.false_eq_true, if_false]
  exact pbWrite_fst _ _ _ _

/-! ## Watcher lemmas -/

theorem wstep_winv (d : ℕ) (p : Bool) (s : WState) (h : WInv d s) :
    WInv d (wstep p s) := by
  obtain ⟨h1, h2⟩ := h
  by_cases hf : s.finished = true
  · unfold wstep
    rw [if_pos hf]
    exact ⟨h1, h2⟩
  · have hf' : s.finished = false := by simpa using hf
    obtain ⟨e1, e2⟩ := h1 hf'
    unfold wstep
    rw [if_neg hf]
    by_cases hp : p = true
    · rw [if_pos hp]
      refine ⟨fun _ => ⟨?_, e2⟩, fun hc => ?_⟩
      · simp only []
        omega
      · simp [hf'] at hc
    · rw [if_neg hp]
      by_cases hw : s.endT - s.now ≤ 60 ∧ s.warned = false
      · rw [if_pos hw]
        by_cases hr : s.endT - s.now ≤ 0
        · rw [if_pos hr]
          refine ⟨fun hc => ?_, fun _ => ?_⟩
          · simp at hc
          · simp only []
            omega
        · rw [if_neg hr]
          refine ⟨fun _ => ⟨?_, ?_⟩, fun hc => ?_⟩
          · simp only []
            push_cast
            omega
          · simp only []
            omega
          · simp [hf'] at hc
      · rw [if_neg hw]
        by_cases hr : s.endT - s.now ≤ 0
        · rw [if_pos hr]
          refine ⟨fun hc => ?_, fun _ => ?_⟩
          · simp at hc
          · simp only []
            omega
        · rw [if_neg hr]
          refine ⟨fun _ => ⟨?_, ?_⟩, fun hc => ?_⟩
          · simp only []
            push_cast
            omega
          · simp only []
            omega
          · simp [hf'] at hc

theorem wrun_winv (d : ℕ) (sched : List Bool) (s : WState) (h : WInv d s) :
    WInv d (wrun sched s) := by
  induction sched generalizing s with
  | nil => exact h
  | cons p ps ih => exact ih _ (wstep_winv d p s h)

theorem winit_winv (d : ℕ) : WInv d (winit d) := by
  unfold WInv winit
  refine ⟨fun _ => ⟨by simp, by simp⟩, fun hc => by simp at hc⟩

theorem wstep_ninv (p : Bool) (s : WState) (h : NInv s) : NInv (wstep p s) := by
  unfold NInv at h ⊢
  unfold wstep
  by_cases hf : s.finished = true
  · rw [if_pos hf]; exact h
  · rw [if_neg hf]
    by_cases hp : p = true
    · rw [if_pos hp]; exact h
    · rw [if_neg hp]
      by_cases hw : s.endT - s.now ≤ 60 ∧ s.warned = false
      · have hw2 := hw.2
        rw [if_pos hw]
        by_cases hr : s.endT - s.now ≤ 0
        · rw [if_pos hr]
          simp [hw2] at h
          simp [h]
        · rw [if_neg hr]
          simp [hw2] at h
          simp [h]
      · rw [if_neg hw]
        by_cases hr : s.endT - s.now ≤ 0
        · rw [if_pos hr]
          exact h
        · rw [if_neg hr]
          exact h

theorem wrun_ninv (sched : List Bool) (s : WState) (h : NInv s) :
    NInv (wrun sched s) := by
  induction sched generalizing s with
  | nil => exact h
  | cons p ps ih => exact ih _ (wstep_ninv p s h)

theorem wstep_warned_mono (p : Bool) (s : WState) (h : s.warned = true) :
    (wstep p s).warned = true := by
  unfold wstep
  by_cases hf : s.finished = true
  · rw [if_pos hf]; exact h
  · rw [if_neg hf]
    by_cases hp : p = true
    · rw [if_pos hp]; exact h
    · rw [if_neg hp]
      have hw : ¬(s.endT - s.now ≤ 60 ∧ s.warned = false) := by
        rintro ⟨-, hc⟩
        rw [h] at hc
        exact Bool.true_eq_false.mp hc
      rw [if_neg hw]
      by_cases hr : s.endT - s.now ≤ 0
      · rw [if_pos hr]; exact h
      · rw [if_neg hr]; exact h

theorem wrun_warned_mono (sched : List Bool) (s : WState) (h : s.warned = true) :
    (wrun sched s).warned = true := by
  induction sched generalizing s with
  | nil => exact h
  | cons p ps ih => exact ih _ (wstep_warned_mono p s h)

theorem wrun_paused_not_finished (n : ℕ) (s : WState) (h : s.finished = false) :
    (wrun (List.replicate n true) s).finished = false := by
  induction n generalizing s with
  | zero => exact h
  | succ n ih =>
      have hstep : (wstep true s).finished = false := by
        unfold wstep
        rw [if_neg (by simp [h]), if_pos rfl]
        exact h
      simpa [wrun, List.replicate_succ] using ih (wstep true s) hstep

/-! ## Claim theorems -/

/-- Claim C3 is corrected at this input: the implemented pattern allows
whitespace between the number and the unit letter (`\s*`), so on `"5 m"`
the parser returns 300, while the claimed immediately-adjacent extraction
finds no occurrence and totals 0. -/
theorem C3_counterexample :
    ¬ claimC3Statement "5 m" ∧ parse_duration "5 m" = 300 ∧
    scanWith matchAtImmediate "5 m".data = [] := by
  have h1 : parse_duration "5 m" = 300 := by decide
  have h2 : scanWith matchAtImmediate "5 m".data = [] := by decide
  refine ⟨?_, h1, h2⟩
  unfold claimC3Statement
  rw [h1, h2]
  norm_num [specSum, pyTrunc]

/-- Claim C3 as amended: for every input string, the parser sums exactly
the occurrences of a decimal number followed — possibly after whitespace —
by a unit letter `h`/`m`/`s` (case-insensitive, `h` × 3600, `m` × 60,
`s` × 1), ignores all other characters, and returns a non-negative integer
with fractional seconds truncated toward zero. -/
theorem C3_parse_duration_sums_matches (s : String) :
    parse_duration s = pyTrunc (specSum (scanWith matchAt s.data)) ∧
    0 ≤ parse_duration s :=
  ⟨parse_duration_eq_specSum s, parse_duration_nonneg s⟩

/-- Claim C4: the documented duration examples parse as specified
(`"1h 20m 30s"` → 4830, `"90s"` → 90, `"2.5m"` → 150, `""` → 0, any text
with no number-with-unit match → 0), and `/time` rejects any request whose
parsed total is ≤ 0 without creating or modifying any timer state. -/
theorem C4_parse_examples_and_rejection :
    parse_duration "1h 20m 30s" = 4830 ∧ parse_duration "90s" = 90 ∧
    parse_duration "2.5m" = 150 ∧ parse_duration "" = 0 ∧
    (∀ s : String, scanWith matchAt s.data = [] → parse_duration s = 0) ∧
    (∀ (reg : Registry) (d : String) (g c u : ℕ) (now : ℚ),
      parse_duration d ≤ 0 →
        startTimer reg d g c u now = (reg, .invalidDuration)) := by
  refine ⟨by decide, by decide, by decide, by decide, ?_, ?_⟩
  · intro s hs
    unfold parse_duration
    rw [hs]
    rfl
  · intro reg d g c u now h
    unfold startTimer
    rw [if_pos h]

/-- Witness for C4: `"hms text"` has no number-with-unit match and parses
to 0, and a start request with it is rejected leaving the registry
unchanged. -/
theorem C4_witness :
    scanWith matchAt "hms text".data = [] ∧ parse_duration "hms text" = 0 ∧
    parse_duration "hms text" ≤ 0 ∧
    startTimer sampleReg "hms text" 7 8 9 0 = (sampleReg, .invalidDuration) := by
  refine ⟨by decide, ?_, by decide, ?_⟩
  · exact C4_parse_examples_and_rejection.2.2.2.2.1 "hms text" (by decide)
  · exact C4_parse_examples_and_rejection.2.2.2.2.2 sampleReg "hms text" 7 8 9 0
      (by decide)

/-- Claim C5: at most one active timer per identity.  A start request for a
registered identity leaves the registry unchanged and is not started (with
a positive parsed duration it reports the identity collision); a start
request for an unregistered identity with positive parsed duration
registers exactly the new entry; and after the previous timer was
deregistered via `stop_timer` (the Finished and Ended paths), a new start
for the same identity succeeds. -/
theorem C5_identity_uniqueness (reg : Registry) (d : String) (g c u : ℕ)
    (now : ℚ) (e : RegEntry) :
    (rlookup reg (timerId g c u) = some e →
      (startTimer reg d g c u now).1 = reg ∧
      (startTimer reg d g c u now).2 ≠ .started) ∧
    (rlookup reg (timerId g c u) = some e → 0 < parse_duration d →
      startTimer reg d g c u now = (reg, .identityCollision)) ∧
    (rlookup reg (timerId g c u) = none → 0 < parse_duration d →
      startTimer reg d g c u now =
        (reg ++ [(timerId g c u,
          ⟨mkTimerView (timerId g c u) ((parse_duration d : ℤ) : ℚ) now, false⟩)],
         .started) ∧
      rlookup (startTimer reg d g c u now).1 (timerId g c u) =
        some ⟨mkTimerView (timerId g c u) ((parse_duration d : ℤ) : ℚ) now, false⟩) ∧
    (0 < parse_duration d →
      (startTimer (stop_timer reg (timerId g c u)) d g c u now).2 = .started) := by
  refine ⟨?_, ?_, ?_, ?_⟩
  · intro hsome
    unfold startTimer
    by_cases hd : parse_duration d ≤ 0
    · rw [if_pos hd]
      exact ⟨rfl, by intro hc; cases hc⟩
    · rw [if_neg hd, if_pos (by rw [hsome]; rfl)]
      exact ⟨rfl, by intro hc; cases hc⟩
  · intro hsome hpos
    unfold startTimer
    rw [if_neg (by omega), if_pos (by rw [hsome]; rfl)]
  · intro hnone hpos
    have hstart : startTimer reg d g c u now =
        (reg ++ [(timerId g c u,
          ⟨mkTimerView (timerId g c u) ((parse_duration d : ℤ) : ℚ) now, false⟩)],
         .started) := by
      unfold startTimer
      rw [if_neg (by omega), if_neg (by rw [hnone]; simp)]
    refine ⟨hstart, ?_⟩
    rw [hstart]
    exact rlookup_append_singleton reg (timerId g c u) _ hnone
  · intro hpos
    unfold startTimer
    rw [if_neg (by omega),
      if_neg (by rw [rlookup_stop_timer reg (timerId g c u)]; simp)]

/-- Witness for C5: with `sampleView` registered under its identity
`"1-2-3"`, a second 5-second start for guild 1, channel 2, user 3 is
rejected as a collision; after deregistration the same start succeeds. -/
theorem C5_witness :
    rlookup sampleReg (timerId 1 2 3) = some ⟨sampleView, false⟩ ∧
    0 < parse_duration "5s" ∧
    startTimer sampleReg "5s" 1 2 3 0 = (sampleReg, .identityCollision) ∧
    (startTimer (stop_timer sampleReg (timerId 1 2 3)) "5s" 1 2 3 0).2 =
      .started := by
  refine ⟨rfl, by decide, ?_, ?_⟩
  · exact (C5_identity_uniqueness sampleReg "5s" 1 2 3 0 ⟨sampleView, false⟩).2.1
      rfl (by decide)
  · exact (C5_identity_uniqueness sampleReg "5s" 1 2 3 0 ⟨sampleView, false⟩).2.2.2
      (by decide)

/-- A Pause press for an identity absent from the registry: the view is
mutated first, then the registry write raises `KeyError`. -/
theorem pause_button_absent_running (reg : Registry) (v : TimerView) (now : ℚ)
    (hnone : rlookup reg v.timer_id = none) (hrun : v.paused = false) :
    pause_button reg v now =
      ({ v with paused := true, pause_start_time := some now,
                button_label := "Resume" }, reg, .error .keyError) := by
  unfold pause_button
  rw [hrun]
  simp only [Bool.false_eq_true, if_false]
  unfold pbWrite
  dsimp only
  rw [hnone]

/-- Claim C8 is corrected at this input: with the registry empty (the
timer already Finished or Ended and deregistered), pressing Pause is not a
silent no-op — the handler flips the view's paused flag and then raises
`KeyError` at the registry update, never reaching the acknowledgment. -/
theorem C8_counterexample :
    ¬ claimC8Statement [] sampleView 30 ∧
    (pause_button [] sampleView 30).2.2 = .error .keyError ∧
    (pause_button [] sampleView 30).1.paused = true := by
  refine ⟨?_, rfl, rfl⟩
  rintro ⟨h, -, -⟩
  have hf : exceptOk (pause_button [] sampleView 30).2.2 = false := rfl
  rw [hf] at h
  cases h

/-- Claim C8 as amended: invoking the Pause/Resume toggle on a timer whose
identity is absent from the registry (already Finished/Ended) mutates the
view's pause state in place and then raises `KeyError` at the registry
write — no acknowledgment is sent — while the registry itself is left
unchanged and the timer is not re-registered. -/
theorem C8_stale_pause_raises_keyerror :
    (∀ (reg : Registry) (v : TimerView) (now : ℚ),
      rlookup reg v.timer_id = none → v.paused = false →
        pause_button reg v now =
          ({ v with paused := true, pause_start_time := some now,
                    button_label := "Resume" }, reg, .error .keyError)) ∧
    (∀ (reg : Registry) (v : TimerView) (now : ℚ),
      rlookup reg v.timer_id = none →
        (pause_button reg v now).2.1 = reg ∧
        exceptOk (pause_button reg v now).2.2 = false ∧
        (pause_button reg v now).1.paused = !v.paused) := by
  constructor
  · exact pause_button_absent_running
  · intro reg v now hnone
    by_cases hp : v.paused = true
    · unfold pause_button
      rw [hp]
      simp only [if_true]
      cases hpst : v.pause_start_time with
      | none => exact ⟨rfl, rfl, by simp [hp]⟩
      | some t0 =>
          unfold pbWrite
          dsimp only
          rw [hnone]
          exact ⟨rfl, rfl, by simp [hp]⟩
    · have hrun : v.paused = false := by simpa using hp
      rw [pause_button_absent_running reg v now hnone hrun]
      exact ⟨rfl, rfl, by simp [hrun]⟩

/-- Witness for C8's amended theorem: a concrete stale Pause press on the
empty registry, derived by applying the theorem. -/
theorem C8_witness :
    rlookup ([] : Registry) sampleView.timer_id = none ∧
    sampleView.paused = false ∧
    pause_button [] sampleView 30 =
      ({ sampleView with paused := true, pause_start_time := some 30,
                         button_label := "Resume" }, [], .error .keyError) :=
  ⟨rfl, rfl, C8_stale_pause_raises_keyerror.1 [] sampleView 30 rfl rfl⟩

/-- Claim C9: pressing End twice is equivalent to pressing it once — the
second press recomputes the very same registry (deleting an absent key is
a no-op), leaves the view in the same disabled state, and neither press
emits any channel notification. -/
theorem C9_end_twice_equals_once (reg : Registry) (v : TimerView) :
    end_button (end_button reg v).1 (end_button reg v).2.1 = end_button reg v ∧
    (end_button reg v).2.2 = [] := by
  constructor
  · unfold end_button
    refine Prod.ext ?_ (Prod.ext rfl rfl)
    exact stop_timer_idem reg v.timer_id
  · rfl

/-- Evaluation rule for `pyTrunc` on a value between consecutive
natural numbers. -/
theorem pyTrunc_eq_of_bounds (q : ℚ) (n : ℕ) (h1 : (n : ℚ) ≤ q)
    (h2 : q < n + 1) : pyTrunc q = n := by
  have h0 : (0 : ℚ) ≤ q := le_trans (by positivity) h1
  unfold pyTrunc
  rw [if_pos h0, Int.floor_eq_iff]
  constructor
  · exact_mod_cast h1
  · exact_mod_cast h2

/-- Claim C6 is corrected at these inputs.  At `remaining = 2`,
`initial = 3` the code truncates (`int`) where the claim rounds:
16 filled cells versus `round(50/3) = 17`.  At `remaining = 2`,
`initial = 1` (no upper clamp in the code) the bar has 50 cells, not 25. -/
theorem C6_counterexample :
    ¬ claimC6Statement 2 3 ∧ ¬ claimC6Statement 2 1 ∧
    filled_length 2 3 = 16 ∧
    round ((25 : ℚ) * max 0 (min 2 3) / 3) = 17 ∧
    (progress_bar 2 1).length = 50 := by
  have hmax : max (0 : ℚ) 2 = 2 := max_eq_right (by norm_num)
  have hf3 : filled_length 2 3 = 16 := by
    unfold filled_length
    rw [if_pos (by norm_num : (0 : ℚ) < 3), hmax,
      pyTrunc_eq_of_bounds _ 16 (by norm_num) (by norm_num)]
    rfl
  have hr : round ((25 : ℚ) * max 0 (min 2 3) / 3) = 17 := by
    rw [min_eq_left (by norm_num : (2 : ℚ) ≤ 3), hmax, round_eq,
      Int.floor_eq_iff]
    constructor
    · norm_num
    · norm_num
  have hf1 : filled_length 2 1 = 50 := by
    unfold filled_length
    rw [if_pos (by norm_num : (0 : ℚ) < 1), hmax,
      pyTrunc_eq_of_bounds _ 50 (by norm_num) (by norm_num)]
    rfl
  have hb : (progress_bar 2 1).length = 50 := by
    unfold progress_bar
    rw [hf1]
    simp
  refine ⟨?_, ?_, hf3, hr, hb⟩
  · rintro ⟨-, h2, -⟩
    have h := h2 (by norm_num)
    rw [hf3, hr] at h
    norm_num at h
  · rintro ⟨h1, -, -⟩
    rw [hb] at h1
    norm_num at h1

/-- Claim C6 as amended: the filled-cell count is the *truncation*
`⌊25 × max(0, remaining)/initial⌋` when `initial > 0` (and 0 otherwise),
and the bar has exactly 25 cells whenever `remaining ≤ initial`; above the
initial duration the filled count is unclamped and the bar grows beyond
25 cells. -/
theorem C6_bar_truncated_fill (remaining initial : ℚ) :
    (0 < initial →
      (filled_length remaining initial : ℤ) =
        ⌊25 * (max 0 remaining / initial)⌋) ∧
    (¬ 0 < initial → filled_length remaining initial = 0) ∧
    (remaining ≤ initial → (progress_bar remaining initial).length = 25) := by
  have hnn : ∀ hpos : 0 < initial, (0 : ℚ) ≤ 25 * (max 0 remaining / initial) :=
    fun hpos =>
      mul_nonneg (by norm_num) (div_nonneg (le_max_left 0 remaining) hpos.le)
  refine ⟨?_, ?_, ?_⟩
  · intro hpos
    unfold filled_length
    rw [if_pos hpos]
    unfold pyTrunc
    rw [if_pos (hnn hpos)]
    exact Int.toNat_of_nonneg (Int.floor_nonneg.mpr (hnn hpos))
  · intro hzero
    unfold filled_length
    rw [if_neg hzero]
    norm_num [pyTrunc]
  · intro hle
    have hfb : filled_length remaining initial ≤ 25 := by
      by_cases hpos : 0 < initial
      · unfold filled_length
        rw [if_pos hpos]
        unfold pyTrunc
        rw [if_pos (hnn hpos)]
        have hratio : 25 * (max 0 remaining / initial) ≤ 25 := by
          have h1 : max 0 remaining / initial ≤ 1 :=
            (div_le_one hpos).mpr (max_le hpos.le hle)
          nlinarith
        have hfloor : ⌊25 * (max 0 remaining / initial)⌋ ≤ 25 := by
          have h2 := Int.floor_le_floor hratio
          rwa [show ((25 : ℚ)) = ((25 : ℤ) : ℚ) by norm_num,
            Int.floor_intCast] at h2
        exact Int.toNat_le.mpr (by exact_mod_cast hfloor)
      · unfold filled_length
        rw [if_neg hpos]
        norm_num [pyTrunc]
    unfold progress_bar
    simp only [List.length_append, List.length_replicate]
    omega

/-- Witness for C6's amended theorem at `remaining = 0`, `initial = 1`. -/
theorem C6_witness :
    (0 : ℚ) < 1 ∧
    ((filled_length 0 1 : ℤ) = ⌊(25 : ℚ) * (max 0 0 / 1)⌋) ∧
    (0 : ℚ) ≤ 1 ∧ (progress_bar 0 1).length = 25 :=
  ⟨one_pos, (C6_bar_truncated_fill 0 1).1 one_pos, zero_le_one,
    (C6_bar_truncated_fill 0 1).2.2 zero_le_one⟩

/-- Claim C1, evaluated at the failing input: a 90-second timer started at
instant 0 is paused at instant 30, when `end_time - now = 60` seconds
remain.  The pause handler never captures that value — every display
refresh during the pause renders `duration_seconds = 90`, the initial
duration, not the frozen 60. -/
theorem C1_paused_display_shows_initial_duration :
    (pause_button reg90 view90 30).1.paused = true ∧
    view90.end_time - 30 = 60 ∧
    update_embed_remaining (pause_button reg90 view90 30).1 31 = 90 ∧
    update_embed_remaining (pause_button reg90 view90 30).1 89 = 90 ∧
    (90 : ℚ) ≠ 60 := by
  have hfst : (pause_button reg90 view90 30).1 =
      { view90 with paused := true, pause_start_time := some 30,
                    button_label := "Resume" } :=
    pause_button_fst_of_running reg90 view90 30 rfl
  refine ⟨by rw [hfst], ?_, ?_, ?_, by norm_num⟩
  · show ((0 : ℚ) + 90) - 30 = 60
    norm_num
  · rw [hfst]
    norm_num [update_embed_remaining, view90, mkTimerView]
  · rw [hfst]
    norm_num [update_embed_remaining, view90, mkTimerView]

/-- Claim C2: paused wall-clock time never counts toward expiry.  (i) A
pause at `t1` followed by a resume at `t2` shifts the view's completion
target forward by exactly `t2 - t1`; (ii) while paused, each watcher tick
shifts `end_time` forward by one tick interval; (iii) a timer paused for
any number of consecutive ticks never reaches the Finished transition;
(iv) whenever the watcher does finish, the wall-clock seconds it spent
ticking while Running equal the initial duration exactly. -/
theorem C2_pause_resume_time_accounting :
    (∀ (reg1 reg2 : Registry) (v : TimerView) (t1 t2 : ℚ),
      v.paused = false →
        (pause_button reg2 (pause_button reg1 v t1).1 t2).1.end_time =
          v.end_time + (t2 - t1) ∧
        (pause_button reg2 (pause_button reg1 v t1).1 t2).1.paused = false) ∧
    (∀ (p : Bool) (s : WState), s.finished = false → p = true →
      wstep p s = { s with endT := s.endT + 1, now := s.now + 1 }) ∧
    (∀ (n d : ℕ), (wrun (List.replicate n true) (winit d)).finished = false) ∧
    (∀ (sched : List Bool) (d : ℕ),
      (wrun sched (winit d)).finished = true →
      (wrun sched (winit d)).runTime = d) := by
  refine ⟨?_, ?_, ?_, ?_⟩
  · intro reg1 reg2 v t1 t2 hrun
    rw [pause_button_fst_of_running reg1 v t1 hrun]
    have h2 : (pause_button reg2
        { v with paused := true, pause_start_time := some t1,
                 button_label := "Resume" } t2).1 =
        { v with paused := false, pause_start_time := some t1,
                 end_time := v.end_time + (t2 - t1),
                 button_label := "Pause" } :=
      pbWrite_fst reg2 _ false "Timer resumed!"
    rw [h2]
    exact ⟨rfl, rfl⟩
  · intro p s hf hp
    subst hp
    unfold wstep
    rw [if_neg (by simp [hf]), if_pos rfl]
  · intro n d
    exact wrun_paused_not_finished n (winit d) rfl
  · intro sched d hfin
    exact (wrun_winv d sched (winit d) (winit_winv d)).2 hfin

/-- Witness for C2: a concrete run — pause at 10, resume at 25 shifts the
sample view's target by 15; a 2-second watcher interleaved with pauses
finishes with exactly 2 running seconds. -/
theorem C2_witness :
    sampleView.paused = false ∧
    (pause_button [] (pause_button sampleReg sampleView 10).1 25).1.end_time =
      sampleView.end_time + (25 - 10) ∧
    (winit 7).finished = false ∧
    wstep true (winit 7) =
      { winit 7 with endT := (winit 7).endT + 1, now := (winit 7).now + 1 } ∧
    (wrun [true, false, true, false, false] (winit 2)).finished = true ∧
    (wrun [true, false, true, false, false] (winit 2)).runTime = 2 := by
  refine ⟨rfl, ?_, rfl, ?_, by decide, ?_⟩
  · exact (C2_pause_resume_time_accounting.1 sampleReg [] sampleView 10 25 rfl).1
  · exact C2_pause_resume_time_accounting.2.1 true (winit 7) rfl rfl
  · exact C2_pause_resume_time_accounting.2.2.2 [true, false, true, false, false]
      2 (by decide)

/-- Claim C7: over any schedule of paused/running ticks, the watcher sends
the one-minute notification at most once, and the latch, once set, is
never reset by any later tick. -/
theorem C7_one_minute_warning_at_most_once :
    (∀ (sched : List Bool) (d : ℕ), (wrun sched (winit d)).notes ≤ 1) ∧
    (∀ (sched : List Bool) (s : WState), s.warned = true →
      (wrun sched s).warned = true) := by
  constructor
  · intro sched d
    have h := wrun_ninv sched (winit d) (by unfold NInv winit; simp)
    unfold NInv at h
    rw [h]
    split
    · omega
    · omega
  · intro sched s h
    exact wrun_warned_mono sched s h

/-- Witness for C7: a latched watcher state stays latched over a concrete
schedule crossing pause and run ticks. -/
theorem C7_witness :
    (⟨0, 50, true, false, 1, 0⟩ : WState).warned = true ∧
    (wrun [false, true, false] ⟨0, 50, true, false, 1, 0⟩).warned = true :=
  ⟨rfl, C7_one_minute_warning_at_most_once.2 [false, true, false]
    ⟨0, 50, true, false, 1, 0⟩ rfl⟩

/-- Membership in a registry after an entry assignment: the element is
either the assigned entry or was already present. -/
theorem mem_rset (reg : Registry) (id : String) (e' : RegEntry)
    (p : String × RegEntry) (h : p ∈ rset reg id e') : p.2 = e' ∨ p ∈ reg := by
  induction reg with
  | nil => simp [rset] at h
  | cons q r ih =>
      obtain ⟨k, e⟩ := q
      unfold rset at h
      by_cases hk : k = id
      · rw [if_pos hk] at h
        rcases List.mem_cons.mp h with h1 | h2
        · left; rw [h1]
        · right; exact List.mem_cons_of_mem _ h2
      · rw [if_neg hk] at h
        rcases List.mem_cons.mp h with h1 | h2
        · right; rw [h1]; exact List.mem_cons_self _ _
        · rcases ih h2 with ha | hb
          · left; exact ha
          · right; exact List.mem_cons_of_mem _ hb

/-- An entry assignment whose flag agrees with its view preserves the
registry/view agreement. -/
theorem rset_reginv (reg : Registry) (id : String) (e' : RegEntry)
    (he : e'.paused = e'.view.paused) (h : RegInv reg) :
    RegInv (rset reg id e') := by
  intro p hp
  rcases mem_rset reg id e' p hp with h1 | h2
  · rw [h1]; exact he
  · exact h p h2

/-- Claim C10 is corrected at this input: after the identity `"1-2-3"` was
deregistered and re-registered with `freshView`, a press on the old,
still-live control `sampleView` reaches the handler and writes only
`'paused' = True` into the new entry (src/main.py:212), whose stored view
still has `paused = False` — the registry flag read by the watcher and the
view field read by the display refresh now disagree. -/
theorem C10_counterexample :
    ¬ claimC10Statement ∧
    RegInv freshReg ∧
    ¬ RegInv (pause_button freshReg sampleView 130).2.1 ∧
    exceptOk (pause_button freshReg sampleView 130).2.2 = true := by
  have h1 : RegInv freshReg := by
    intro p hp
    have hpe := List.mem_singleton.mp hp
    subst hpe
    rfl
  have hres : (pause_button freshReg sampleView 130).2.1 =
      [("1-2-3", (⟨freshView, true⟩ : RegEntry))] := rfl
  have h2 : ¬ RegInv (pause_button freshReg sampleView 130).2.1 := by
    intro hInv
    have hm := hInv ("1-2-3", (⟨freshView, true⟩ : RegEntry))
      (by rw [hres]; exact List.mem_singleton.mpr rfl)
    simp [freshView, mkTimerView] at hm
  exact ⟨fun hc => h2 (hc freshReg sampleView 130 h1), h1, h2, rfl⟩

/-- Claim C10 as amended: registration establishes the flag/view
agreement, a Pause/Resume press on the *currently registered* control
updates the entry's flag and its view's field in the same handler step,
and deregistration preserves the agreement; a press on a stale control
whose identity has since been re-registered, however, writes only the flag
into the new entry and desynchronizes it from that entry's view. -/
theorem C10_sync_on_registered_controls :
    (∀ (reg : Registry) (d : String) (g c u : ℕ) (now : ℚ), RegInv reg →
      RegInv (startTimer reg d g c u now).1) ∧
    (∀ (reg : Registry) (id : String) (now : ℚ), RegInv reg →
      RegInv (pause_button_registered reg id now)) ∧
    (∀ (reg : Registry) (id : String), RegInv reg →
      RegInv (stop_timer reg id)) := by
  refine ⟨?_, ?_, ?_⟩
  · intro reg d g c u now h
    unfold startTimer
    by_cases h1 : parse_duration d ≤ 0
    · rw [if_pos h1]; exact h
    · rw [if_neg h1]
      by_cases h2 : (rlookup reg (timerId g c u)).isSome
      · rw [if_pos h2]; exact h
      · rw [if_neg h2]
        intro p hp
        rcases List.mem_append.mp hp with ha | hb
        · exact h p ha
        · have hpe := List.mem_singleton.mp hb
          subst hpe
          rfl
  · intro reg id now h
    unfold pause_button_registered
    cases hl : rlookup reg id with
    | none => exact h
    | some e =>
        dsimp only
        by_cases hp : e.view.paused = true
        · rw [if_pos hp]
          cases hpst : e.view.pause_start_time with
          | none => exact h
          | some t0 => exact rset_reginv reg id _ rfl h
        · rw [if_neg hp]
          exact rset_reginv reg id _ rfl h
  · intro reg id h
    unfold stop_timer
    by_cases hs : (rlookup reg id).isSome
    · rw [if_pos hs]
      intro p hp
      exact h p (List.mem_of_mem_filter hp)
    · rw [if_neg hs]; exact h

/-- Witness for C10's amended theorem: the invariant holds for the empty
registry, after a fresh registration, and after pausing the registered
sample timer through its own control. -/
theorem C10_witness :
    RegInv ([] : Registry) ∧ RegInv (startTimer [] "5s" 1 2 3 0).1 ∧
    RegInv sampleReg ∧
    RegInv (pause_button_registered sampleReg "1-2-3" 10) := by
  have h0 : RegInv ([] : Registry) := by
    intro p hp
    cases hp
  have hs : RegInv sampleReg := by
    intro p hp
    have hpe := List.mem_singleton.mp hp
    subst hpe
    rfl
  exact ⟨h0, C10_sync_on_registered_controls.1 [] "5s" 1 2 3 0 h0, hs,
    C10_sync_on_registered_controls.2.1 sampleReg "1-2-3" 10 hs⟩

end BdsBot
